import Mathlib

/-!
Verification development for the tractfinder_chh repository.

The repository core under study consists of `virtue.py` (virtual tumour
expansion) and `lib/tractfinder/utils.py` (angle / coordinate utilities).
Python floating-point arithmetic is modelled over `ℝ` (with `Option ℝ`
standing for a possibly-NaN value: `none` models NaN), exact integer and
index arithmetic over `ℕ`, and fractions over `ℚ`.  A Python function that
can raise is modelled as returning `Except PyErr`.
-/

/-- Error kinds raised by the Python code.
`configurationError` models the explicit `ValueError` raised by
`simplify_vol` when both of its flags are false; `geometryError` models the
`ValueError` arising from degenerate geometry (`np.argmax` of an empty
sequence in `simplify_vol`, and `skimage.measure.marching_cubes` when the
0.5 level lies outside the smoothed volume's data range in
`surf_from_vol`);
`nameError` models Python's `NameError`/`UnboundLocalError` for a name that
is read but never bound; `ambiguousTruthError` models the `ValueError`
("truth value of an array ... is ambiguous") raised when an assert
truth-tests a NumPy array of more than one element. -/
inductive PyErr
  | configurationError
  | geometryError
  | nameError
  | ambiguousTruthError
  deriving DecidableEq

/-- Euclidean norm of a 3-vector, used to state unit-norm facts. -/
noncomputable def norm3 (p : ℝ × ℝ × ℝ) : ℝ :=
  Real.sqrt (p.1 ^ 2 + p.2.1 ^ 2 + p.2.2 ^ 2)

namespace Tf

/-! Embedding of `lib/tractfinder/utils.py`. -/

/-- NumPy `arctan2 y x`: the argument of the complex number `x + y i`,
which lies in `(-π, π]` and is `0` at the origin.  `ℝ` has no signed
zeros, so this matches `np.arctan2` at every input except those whose
floating-point evaluation produces a negative zero
(`np.arctan2(±0.0, -0.0) = ±π` while the model gives `0`); the theorems
below apply it only where the arguments are nonzero or where the
corresponding floating-point intermediates carry positive zero signs. -/
noncomputable def atan2 (y x : ℝ) : ℝ := Complex.arg ((x : ℂ) + y * Complex.I)

/-- Radius `np.sqrt(X**2 + Y**2 + Z**2)` from `utils.c2s`. -/
noncomputable def rho3 (x y z : ℝ) : ℝ := Real.sqrt (x ^ 2 + y ^ 2 + z ^ 2)

/-- Componentwise branch of `utils.c2s` (`len(args)==3`): returns
`(rho, el, az)` with `el = arccos(z/rho)`.  When `rho = 0` (a point at the
origin) NumPy computes `arccos(0/0) = arccos(nan) = nan`; this NaN is
modelled by `none`.  No sentinel substitution happens in this branch. -/
noncomputable def c2sXYZ (x y z : ℝ) : ℝ × Option ℝ × ℝ :=
  (rho3 x y z,
   if rho3 x y z = 0 then none else some (Real.arccos (z / rho3 x y z)),
   atan2 y x)

/-- Three-argument branch of `utils.s2c` (`R, El, Az`). -/
noncomputable def s2c3 (r el az : ℝ) : ℝ × ℝ × ℝ :=
  (r * Real.sin el * Real.cos az, r * Real.sin el * Real.sin az, r * Real.cos el)

/-- Two-argument branch of `utils.s2c` (`El, Az`; radius implicitly 1). -/
noncomputable def s2c2 (el az : ℝ) : ℝ × ℝ × ℝ :=
  (Real.sin el * Real.cos az, Real.sin el * Real.sin az, Real.cos el)

/-- Batch `N*2` branch of `utils.s2c` (rows of `(el, az)` angles,
radius implicitly 1), row by row. -/
noncomputable def s2cMat2 (S : List (ℝ × ℝ)) : List (ℝ × ℝ × ℝ) :=
  S.map fun p =>
    (Real.sin p.1 * Real.cos p.2, Real.sin p.1 * Real.sin p.2, Real.cos p.1)

/-- Function `utils.ang`: angle between two polar points. -/
noncomputable def ang (azA polA azB polB : ℝ) : ℝ :=
  Real.arccos (Real.sin polA * Real.sin polB * Real.cos (azA - azB)
    + Real.cos polA * Real.cos polB)

end Tf

namespace Virtue

/-! Embedding of `virtue.py`. -/

/-- Function `virtue.ang` (virtue.py line 114): its body reads the bare
names `sin` and `cos`, which are bound nowhere in the module
(`virtue.py` imports `numpy as np` but never `sin`/`cos` themselves), so
every call raises `NameError` before any arithmetic happens. -/
def ang (azA polA azB polB : ℝ) : Except PyErr ℝ := .error .nameError

/-- Two-argument branch of `virtue.s2c` (textually identical to the one in
`utils.py`): radius implicitly 1. -/
noncomputable def s2c2 (el az : ℝ) : ℝ × ℝ × ℝ :=
  (Real.sin el * Real.cos az, Real.sin el * Real.sin az, Real.cos el)

/-- Batch `N*2` branch of `virtue.s2c` (textually identical to the one in
`utils.py`), row by row. -/
noncomputable def s2cMat2 (S : List (ℝ × ℝ)) : List (ℝ × ℝ × ℝ) :=
  S.map fun p =>
    (Real.sin p.1 * Real.cos p.2, Real.sin p.1 * Real.sin p.2, Real.cos p.1)

end Virtue

/-- Algebraic core of the unit-norm facts: the squared norm of
`(sin el cos az, sin el sin az, cos el)` is 1. -/
lemma sq_sum_unit (el az : ℝ) :
    (Real.sin el * Real.cos az) ^ 2 + (Real.sin el * Real.sin az) ^ 2
      + (Real.cos el) ^ 2 = 1 := by
  have h1 := Real.sin_sq_add_cos_sq az
  have h2 := Real.sin_sq_add_cos_sq el
  calc (Real.sin el * Real.cos az) ^ 2 + (Real.sin el * Real.sin az) ^ 2
        + (Real.cos el) ^ 2
      = (Real.sin el) ^ 2 * ((Real.sin az) ^ 2 + (Real.cos az) ^ 2)
        + (Real.cos el) ^ 2 := by ring
    _ = 1 := by rw [h1, mul_one]; exact h2

/-- Claim C9: for every elevation and azimuth, calling `s2c` without a
radius (either as two scalar arguments or as an `N×2` array) returns
Cartesian coordinates of Euclidean norm exactly 1, in both `utils.py` and
`virtue.py`. -/
theorem s2c_no_radius_unit_norm (el az : ℝ) :
    norm3 (Tf.s2c2 el az) = 1
    ∧ (∀ S : List (ℝ × ℝ), ∀ q ∈ Tf.s2cMat2 S, norm3 q = 1)
    ∧ norm3 (Virtue.s2c2 el az) = 1
    ∧ (∀ S : List (ℝ × ℝ), ∀ q ∈ Virtue.s2cMat2 S, norm3 q = 1) := by
  have key : ∀ a b : ℝ,
      norm3 (Real.sin a * Real.cos b, Real.sin a * Real.sin b, Real.cos a) = 1 := by
    intro a b
    unfold norm3
    simp only
    rw [sq_sum_unit a b, Real.sqrt_one]
  refine ⟨key el az, ?_, key el az, ?_⟩
  · intro S q hq
    rcases List.mem_map.mp hq with ⟨p, _, rfl⟩
    exact key p.1 p.2
  · intro S q hq
    rcases List.mem_map.mp hq with ⟨p, _, rfl⟩
    exact key p.1 p.2

/-- Witness for claim C9 at a concrete input. -/
theorem s2c_no_radius_unit_norm_witness :
    norm3 (Real.sin 0 * Real.cos 0, Real.sin 0 * Real.sin 0, Real.cos 0) = 1 :=
  (s2c_no_radius_unit_norm 0 0).2.1 [(0, 0)] _ (by simp [Tf.s2cMat2])

/-- Claim C10: every call of `virtue.ang` raises `NameError` (unqualified
`sin`/`cos` are unbound in that module) and never produces a value, while
`utils.ang` returns `arccos(sin polA sin polB cos(azA - azB) +
cos polA cos polB)`; hence the two definitions agree on no input. -/
theorem ang_virtue_nameError (azA polA azB polB : ℝ) :
    Virtue.ang azA polA azB polB = Except.error PyErr.nameError
    ∧ Tf.ang azA polA azB polB
        = Real.arccos (Real.sin polA * Real.sin polB * Real.cos (azA - azB)
            + Real.cos polA * Real.cos polB)
    ∧ ∀ r : ℝ, Virtue.ang azA polA azB polB ≠ Except.ok r :=
  ⟨rfl, rfl, fun r h => by simp [Virtue.ang] at h⟩

/-- Witness for claim C10 at a concrete input. -/
theorem ang_virtue_nameError_witness :
    Virtue.ang 0 0 0 0 = Except.error PyErr.nameError
    ∧ Virtue.ang 0 0 0 0 ≠ Except.ok 0 :=
  ⟨(ang_virtue_nameError 0 0 0 0).1, (ang_virtue_nameError 0 0 0 0).2.2 0⟩

/-- Radius recovery: the squared norm of `s2c3 r el az` is `r ^ 2`. -/
lemma s2c3_sq_sum (r el az : ℝ) :
    (r * Real.sin el * Real.cos az) ^ 2 + (r * Real.sin el * Real.sin az) ^ 2
      + (r * Real.cos el) ^ 2 = r ^ 2 := by
  have h := sq_sum_unit el az
  calc (r * Real.sin el * Real.cos az) ^ 2 + (r * Real.sin el * Real.sin az) ^ 2
        + (r * Real.cos el) ^ 2
      = r ^ 2 * ((Real.sin el * Real.cos az) ^ 2 + (Real.sin el * Real.sin az) ^ 2
        + (Real.cos el) ^ 2) := by ring
    _ = r ^ 2 := by rw [h, mul_one]

/-- Claim C2 (amended): for `r > 0`, elevation strictly inside `(0, π)` and
azimuth in `(-π, π]`, converting spherical to Cartesian (`utils.s2c`,
three-argument form) and back (`utils.c2s`, componentwise form) is the
identity.  At `el = 0` the Cartesian point lies on the polar axis and the
source does not recover the azimuth (see the counterexample), so the
claim's closed interval `[0, π]` is amended to the open one.  `el = π` is
also excluded from the formal statement: over exact reals `sin π = 0`,
whereas the floating-point code has `sin(π) ≈ 1.2e-16` and does recover
the azimuth there within tolerance, so the model is only faithful away
from `π`. -/
theorem c2s_s2c_roundtrip (r el az : ℝ) (hr : 0 < r) (hel0 : 0 < el)
    (helpi : el < Real.pi) (haz1 : -Real.pi < az) (haz2 : az ≤ Real.pi) :
    Tf.c2sXYZ (Tf.s2c3 r el az).1 (Tf.s2c3 r el az).2.1 (Tf.s2c3 r el az).2.2
      = (r, some el, az) := by
  have hrho : Tf.rho3 (r * Real.sin el * Real.cos az)
      (r * Real.sin el * Real.sin az) (r * Real.cos el) = r := by
    unfold Tf.rho3
    rw [s2c3_sq_sum r el az]
    exact Real.sqrt_sq hr.le
  have hsin : 0 < Real.sin el := Real.sin_pos_of_pos_of_lt_pi hel0 helpi
  simp only [Tf.s2c3, Tf.c2sXYZ]
  refine Prod.ext ?_ (Prod.ext ?_ ?_)
  · exact hrho
  · have hz : r * Real.cos el / r = Real.cos el := by
      rw [mul_comm, mul_div_assoc, div_self hr.ne', mul_one]
    rw [hrho, if_neg hr.ne', hz, Real.arccos_cos hel0.le helpi.le]
  · show Tf.atan2 (r * Real.sin el * Real.sin az) (r * Real.sin el * Real.cos az) = az
    unfold Tf.atan2
    have hre : ((r * Real.sin el * Real.cos az : ℝ) : ℂ)
        + (r * Real.sin el * Real.sin az : ℝ) * Complex.I
        = ((r * Real.sin el : ℝ) : ℂ)
          * (Complex.cos (az : ℂ) + Complex.sin (az : ℂ) * Complex.I) := by
      rw [← Complex.ofReal_cos, ← Complex.ofReal_sin]
      push_cast
      ring
    rw [hre, Complex.arg_mul_cos_add_sin_mul_I (mul_pos hr hsin) ⟨haz1, haz2⟩]

/-- Witness for claim C2 at the concrete input `(r, el, az) = (1, π/2, 0)`. -/
theorem c2s_s2c_roundtrip_witness :
    Tf.c2sXYZ (Tf.s2c3 1 (Real.pi / 2) 0).1 (Tf.s2c3 1 (Real.pi / 2) 0).2.1
      (Tf.s2c3 1 (Real.pi / 2) 0).2.2 = (1, some (Real.pi / 2), 0) :=
  c2s_s2c_roundtrip 1 (Real.pi / 2) 0 one_pos (by positivity)
    (by linarith [Real.pi_pos]) (by linarith [Real.pi_pos]) Real.pi_pos.le

/-- Counterexample to claim C2 as stated: at `(r, el, az) = (1, 0, π/2)`
the elevation `0` lies in the claim's interval `[0, π]` and the azimuth
`π/2` lies in `(-π, π]`, yet the round trip returns azimuth `0 ≠ π/2`.
This input avoids the model's signed-zero blind spot: in the source,
`X = sin(0)*cos(π/2)` and `Y = sin(0)*sin(π/2)` are both `+0.0` in IEEE
floats (`np.sin(0.0) = +0.0` and `np.cos(π/2) ≈ 6.1e-17 > 0`), and
`np.arctan2(+0.0, +0.0) = +0.0`, exactly the `atan2 0 0 = 0` the model
computes, a discrepancy of `π/2` from the claimed azimuth, far beyond
floating-point tolerance. -/
theorem c2s_s2c_pole_counterexample :
    (Tf.c2sXYZ (Tf.s2c3 1 0 (Real.pi / 2)).1 (Tf.s2c3 1 0 (Real.pi / 2)).2.1
      (Tf.s2c3 1 0 (Real.pi / 2)).2.2).2.2 = 0 ∧ (0 : ℝ) ≠ Real.pi / 2 := by
  constructor
  · simp only [Tf.s2c3, Tf.c2sXYZ, Real.sin_zero, Real.cos_zero]
    show Tf.atan2 (1 * 0 * Real.sin (Real.pi / 2))
      (1 * 0 * Real.cos (Real.pi / 2)) = 0
    unfold Tf.atan2
    norm_num [Complex.arg_zero]
  · exact ne_of_lt (by positivity)

/-- Characterisation of a zero radius: `rho3 x y z = 0` exactly at the
origin. -/
lemma rho3_eq_zero_iff (x y z : ℝ) :
    Tf.rho3 x y z = 0 ↔ x = 0 ∧ y = 0 ∧ z = 0 := by
  unfold Tf.rho3
  rw [Real.sqrt_eq_zero (by positivity)]
  constructor
  · intro h
    refine ⟨?_, ?_, ?_⟩ <;> nlinarith [sq_nonneg x, sq_nonneg y, sq_nonneg z]
  · rintro ⟨rfl, rfl, rfl⟩
    ring

/-- Number of points of a batch that coincide with the origin. -/
noncomputable def numOrigin : List (ℝ × ℝ × ℝ) → ℕ
  | [] => 0
  | p :: t => numOrigin t + (if p = ((0 : ℝ), (0 : ℝ), (0 : ℝ)) then 1 else 0)

namespace Tf

/-- One row of the batch branch of `utils.c2s` before sentinel
substitution: the same arithmetic as the componentwise branch. -/
noncomputable def c2sRow (p : ℝ × ℝ × ℝ) : ℝ × Option ℝ × ℝ :=
  c2sXYZ p.1 p.2.1 p.2.2

/-- Sentinel substitution performed by the batch branch of `utils.c2s`:
a NaN elevation (modelled by `none`) is replaced by the mock angle `0.1`. -/
noncomputable def c2sSubst (s : ℝ × Option ℝ × ℝ) : ℝ × ℝ × ℝ :=
  (s.1, s.2.1.getD 0.1, s.2.2)

/-- Batch (`N×3` array) branch of `utils.c2s`.  It computes every row,
counts the NaN elevations (`k`, the printed substitution count), and
replaces each NaN by the sentinel `0.1`.  The guarding
`assert np.where(isnan) == np.where(R==0)` truth-tests the elementwise
comparison of two length-`k` NumPy index arrays: for `k = 1` this reduces
to a single boolean and passes (the NaN positions really are the zero
radius positions), but for `k ≥ 2` Python raises
`ValueError: the truth value of an array with more than one element is
ambiguous`, modelled by `ambiguousTruthError`. -/
noncomputable def c2s (C : List (ℝ × ℝ × ℝ)) :
    Except PyErr (List (ℝ × ℝ × ℝ) × ℕ) :=
  let raw := C.map c2sRow
  let k := raw.countP fun s => s.2.1.isNone
  if 2 ≤ k then .error .ambiguousTruthError
  else .ok (raw.map c2sSubst, k)

end Tf

/-- One row has a NaN elevation exactly when the input point is the
origin. -/
lemma c2sRow_none_iff (p : ℝ × ℝ × ℝ) :
    (Tf.c2sRow p).2.1 = none ↔ p = ((0 : ℝ), (0 : ℝ), (0 : ℝ)) := by
  unfold Tf.c2sRow Tf.c2sXYZ
  constructor
  · intro h
    by_cases hr : Tf.rho3 p.1 p.2.1 p.2.2 = 0
    · have h3 := (rho3_eq_zero_iff _ _ _).mp hr
      exact Prod.ext h3.1 (Prod.ext h3.2.1 h3.2.2)
    · simp [hr] at h
  · intro h
    have h3 : Tf.rho3 p.1 p.2.1 p.2.2 = 0 := by
      rw [h]
      exact (rho3_eq_zero_iff 0 0 0).mpr ⟨rfl, rfl, rfl⟩
    simp [h3]

/-- The NaN count of the batch equals the number of origin points. -/
lemma countP_none_eq_numOrigin (C : List (ℝ × ℝ × ℝ)) :
    (C.map Tf.c2sRow).countP (fun s => s.2.1.isNone) = numOrigin C := by
  induction C with
  | nil => rfl
  | cons p t ih =>
    rw [List.map_cons, List.countP_cons, ih]
    have hstep : numOrigin (p :: t)
        = numOrigin t + (if p = ((0 : ℝ), 0, 0) then 1 else 0) := rfl
    rw [hstep]
    have hiff : ((Tf.c2sRow p).2.1.isNone = true) ↔ p = ((0 : ℝ), 0, 0) := by
      rw [Option.isNone_iff_eq_none]
      exact c2sRow_none_iff p
    by_cases hp : p = ((0 : ℝ), 0, 0)
    · rw [if_pos hp, if_pos (hiff.mpr hp)]
    · rw [if_neg hp, if_neg fun hh => hp (hiff.mp hh)]

/-- Claim C3 (amended): in the batch branch of `utils.c2s`, when at most
one origin point is supplied, the call succeeds, every origin point's
elevation is replaced by the sentinel `0.1` (never NaN) and the recorded
substitution count equals the number of origin points; with two or more
origin points the guarding assert raises instead of recording.  The
componentwise branch performs no substitution at all (see the
counterexample). -/
theorem c2s_batch_sentinel (C : List (ℝ × ℝ × ℝ)) :
    (numOrigin C ≤ 1 →
      Tf.c2s C = .ok (C.map (fun p => Tf.c2sSubst (Tf.c2sRow p)), numOrigin C))
    ∧ (∀ p : ℝ × ℝ × ℝ, p = ((0 : ℝ), 0, 0) →
        Tf.c2sSubst (Tf.c2sRow p) = (0, 0.1, 0))
    ∧ (2 ≤ numOrigin C → Tf.c2s C = .error .ambiguousTruthError) := by
  have hrow : ∀ p : ℝ × ℝ × ℝ, p = ((0 : ℝ), 0, 0) →
      Tf.c2sSubst (Tf.c2sRow p) = (0, 0.1, 0) := by
    intro p hp
    subst hp
    have h0 : Tf.rho3 0 0 0 = 0 :=
      (rho3_eq_zero_iff 0 0 0).mpr ⟨rfl, rfl, rfl⟩
    have haz : Tf.atan2 0 0 = 0 := by
      unfold Tf.atan2
      simp [Complex.arg_zero]
    unfold Tf.c2sSubst Tf.c2sRow Tf.c2sXYZ
    rw [h0]
    simp [haz]
  refine ⟨?_, hrow, ?_⟩
  · intro h1
    unfold Tf.c2s
    simp only [countP_none_eq_numOrigin]
    rw [if_neg (by omega), List.map_map]
    rfl
  · intro h2
    unfold Tf.c2s
    simp only [countP_none_eq_numOrigin]
    rw [if_pos h2]

/-- Witness for claim C3 at the concrete batch `[(0,0,0)]`. -/
theorem c2s_batch_sentinel_witness :
    Tf.c2s [((0 : ℝ), 0, 0)]
      = .ok ([((0 : ℝ), 0, 0)].map (fun p => Tf.c2sSubst (Tf.c2sRow p)),
          numOrigin [((0 : ℝ), 0, 0)])
    ∧ Tf.c2sSubst (Tf.c2sRow ((0 : ℝ), 0, 0)) = (0, 0.1, 0) :=
  ⟨(c2s_batch_sentinel [((0 : ℝ), 0, 0)]).1 (by simp [numOrigin]),
   (c2s_batch_sentinel [((0 : ℝ), 0, 0)]).2.1 _ rfl⟩

/-- Counterexample to claim C3 as stated: the componentwise call form of
the Cartesian-to-spherical conversion applied to the origin yields a NaN
elevation (`none`), not the sentinel `0.1`, and performs no substitution
accounting. -/
theorem c2s_componentwise_no_sentinel :
    Tf.c2sXYZ 0 0 0 = (0, none, 0)
    ∧ (none : Option ℝ) ≠ some 0.1 := by
  constructor
  · have h0 : Tf.rho3 0 0 0 = 0 :=
      (rho3_eq_zero_iff 0 0 0).mpr ⟨rfl, rfl, rfl⟩
    have haz : Tf.atan2 0 0 = 0 := by
      unfold Tf.atan2
      simp [Complex.arg_zero]
    unfold Tf.c2sXYZ
    rw [h0]
    simp [haz]
  · simp

/-- Selectable growth-law models of the tumour deformation engine. -/
inductive GrowthModel
  | linear
  | exponential
  | exponential_constant
  deriving DecidableEq

/-- Modelled from the spec: resolution of the effective per-direction decay
rate of the growth law.  The growth-law implementation itself
(`tractfinder.virtue`, reached through `virtue.entry_point_chh` in
`bin/tractfinder_chh.py`) is not among the sources under study, and
`virtue.py`'s `grow` (lines 78-111) is a comment-only sketch, so this
follows spec section 4.5: `linear` uses no rate; for `exponential` the rate
is dynamically determined per direction and bounded above by
`lambda_param` when supplied; for `exponential_constant` the rate is
globally `lambda_param`, whose absence is a configuration error
(modelled by `none`). -/
def decay_rate : GrowthModel → ℝ → Option ℝ → Option ℝ
  | .linear, _, _ => some 0
  | .exponential, d, none => some d
  | .exponential, d, some l => some (min d l)
  | .exponential_constant, _, some l => some l
  | .exponential_constant, _, none => none

/-- Modelled from the spec: the growth-law displacement factor
`displacement_factor(radius, Dt, Db, model, lambda)` of spec section 4.5
(the implementation is missing from the sources under study, see
`decay_rate`).  The `linear` model decreases linearly from 1 at
`radius = Dt` to 0 at `radius = Db`; both exponential models follow
`exp(-lam * (radius - Dt))` with the resolved decay rate `lam`; every
model is clamped to 1 below `Dt` (interior points move fully with the
tumour boundary) and to exactly 0 at and beyond `Db` (tissue at or beyond
the brain surface is never displaced). -/
noncomputable def displacement_factor (m : GrowthModel) (lam Dt Db r : ℝ) : ℝ :=
  if Db ≤ r then 0
  else if r ≤ Dt then 1
  else
    match m with
    | .linear => (Db - r) / (Db - Dt)
    | .exponential => Real.exp (-lam * (r - Dt))
    | .exponential_constant => Real.exp (-lam * (r - Dt))

/-- The displacement factor is never negative. -/
lemma displacement_factor_nonneg (m : GrowthModel) (lam Dt Db r : ℝ) :
    0 ≤ displacement_factor m lam Dt Db r := by
  unfold displacement_factor
  by_cases h1 : Db ≤ r
  · rw [if_pos h1]
  · rw [if_neg h1]
    by_cases h2 : r ≤ Dt
    · rw [if_pos h2]
      norm_num
    · rw [if_neg h2]
      push_neg at h1 h2
      cases m with
      | linear => exact div_nonneg (by linarith) (by linarith)
      | exponential => exact (Real.exp_pos _).le
      | exponential_constant => exact (Real.exp_pos _).le

/-- The displacement factor is at most 1 for a nonnegative decay rate. -/
lemma displacement_factor_le_one (m : GrowthModel) (lam Dt Db r : ℝ)
    (hl : 0 ≤ lam) : displacement_factor m lam Dt Db r ≤ 1 := by
  unfold displacement_factor
  by_cases h1 : Db ≤ r
  · rw [if_pos h1]
    norm_num
  · rw [if_neg h1]
    by_cases h2 : r ≤ Dt
    · rw [if_pos h2]
    · rw [if_neg h2]
      push_neg at h1 h2
      cases m with
      | linear => exact (div_le_one (by linarith)).mpr (by linarith)
      | exponential =>
        exact Real.exp_le_one_iff.mpr (by nlinarith)
      | exponential_constant =>
        exact Real.exp_le_one_iff.mpr (by nlinarith)

/-- The displacement factor is non-increasing in the radius over
`[Dt, Db]`. -/
lemma displacement_factor_antitone (m : GrowthModel) (lam Dt Db r1 r2 : ℝ)
    (hl : 0 ≤ lam) (h1 : Dt ≤ r1) (h12 : r1 ≤ r2) (h2 : r2 ≤ Db) :
    displacement_factor m lam Dt Db r2 ≤ displacement_factor m lam Dt Db r1 := by
  by_cases hb2 : Db ≤ r2
  · have hz : displacement_factor m lam Dt Db r2 = 0 := by
      unfold displacement_factor
      rw [if_pos hb2]
    rw [hz]
    exact displacement_factor_nonneg m lam Dt Db r1
  · push_neg at hb2
    by_cases ht2 : r2 ≤ Dt
    · have ht1 : r1 ≤ Dt := le_trans h12 ht2
      unfold displacement_factor
      rw [if_neg (by linarith : ¬ Db ≤ r2), if_pos ht2,
        if_neg (by linarith : ¬ Db ≤ r1), if_pos ht1]
    · push_neg at ht2
      by_cases ht1 : r1 ≤ Dt
      · have hone : displacement_factor m lam Dt Db r1 = 1 := by
          unfold displacement_factor
          rw [if_neg (by linarith : ¬ Db ≤ r1), if_pos ht1]
        rw [hone]
        exact displacement_factor_le_one m lam Dt Db r2 hl
      · push_neg at ht1
        unfold displacement_factor
        rw [if_neg (by linarith : ¬ Db ≤ r2), if_neg (by linarith : ¬ r2 ≤ Dt),
          if_neg (by linarith : ¬ Db ≤ r1), if_neg (by linarith : ¬ r1 ≤ Dt)]
        have hmono : -lam * (r2 - Dt) ≤ -lam * (r1 - Dt) := by
          have hmul := mul_le_mul_of_nonneg_left (sub_le_sub_right h12 Dt) hl
          linarith
        cases m with
        | linear => exact (div_le_div_iff_of_pos_right (by linarith)).mpr (by linarith)
        | exponential => exact Real.exp_le_exp.mpr hmono
        | exponential_constant => exact Real.exp_le_exp.mpr hmono

/-- Claim C1 (spec-modelled): for every valid direction pair `Dt ≤ Db`,
every selectable model with its resolved (nonnegative) decay rate, and
every radius, the displacement factor is monotonically non-increasing in
the radius over `[Dt, Db]`, at most 1, and exactly 0 at and beyond `Db`
(the non-infiltrating property). -/
theorem displacement_factor_non_infiltrating (m : GrowthModel) (lamDyn : ℝ)
    (lamParam : Option ℝ) (lam Dt Db : ℝ)
    (hres : decay_rate m lamDyn lamParam = some lam) (hl : 0 ≤ lam)
    (hD : Dt ≤ Db) :
    (∀ r1 r2, Dt ≤ r1 → r1 ≤ r2 → r2 ≤ Db →
      displacement_factor m lam Dt Db r2 ≤ displacement_factor m lam Dt Db r1)
    ∧ (∀ r, displacement_factor m lam Dt Db r ≤ 1)
    ∧ (∀ r, Db ≤ r → displacement_factor m lam Dt Db r = 0) := by
  refine ⟨?_, ?_, ?_⟩
  · intro r1 r2 hr1 hr12 hr2
    exact displacement_factor_antitone m lam Dt Db r1 r2 hl hr1 hr12 hr2
  · intro r
    exact displacement_factor_le_one m lam Dt Db r hl
  · intro r hr
    unfold displacement_factor
    rw [if_pos hr]

/-- Witness for claim C1 at the linear model with `Dt = 0`, `Db = 1`. -/
theorem displacement_factor_non_infiltrating_witness :
    displacement_factor .linear 0 0 1 2 = 0
    ∧ displacement_factor .linear 0 0 1 (3 / 4)
        ≤ displacement_factor .linear 0 0 1 (1 / 2) :=
  ⟨(displacement_factor_non_infiltrating .linear 0 none 0 0 1 rfl le_rfl
      zero_le_one).2.2 2 (by norm_num),
   (displacement_factor_non_infiltrating .linear 0 none 0 0 1 rfl le_rfl
      zero_le_one).1 (1 / 2) (3 / 4) (by norm_num) (by norm_num) (by norm_num)⟩

/-- Voxel index into a 3-D volume. -/
abbrev Voxel := ℕ × ℕ × ℕ

/-- One connected component of the labelled mask `ll = measure.label(vol)`,
as reported by `measure.regionprops`: its voxel set (`ll == 1+i`), its
convex-hull image (`convex_image`, a binary image spanning the bounding
box), and its half-open bounding box `bbox` (`lo` inclusive, `hi`
exclusive).  The hull and bounding box are data computed by skimage; their
documented consistency properties are taken as hypotheses of the theorems
(`RegionOK`). -/
structure Region where
  voxels : Finset Voxel
  hull : Finset Voxel
  lo : Voxel
  hi : Voxel

/-- Voxel lies inside the bounding-box slice
`out[bbox[0]:bbox[3], bbox[1]:bbox[4], bbox[2]:bbox[5]]`. -/
def inSlice (r : Region) (v : Voxel) : Prop :=
  r.lo.1 ≤ v.1 ∧ v.1 < r.hi.1 ∧ r.lo.2.1 ≤ v.2.1 ∧ v.2.1 < r.hi.2.1
    ∧ r.lo.2.2 ≤ v.2.2 ∧ v.2.2 < r.hi.2.2

instance (r : Region) (v : Voxel) : Decidable (inSlice r v) := by
  unfold inSlice
  infer_instance

/-- Documented skimage consistency of a `regionprops` record: the component
is contained in its convex-hull image, and the hull image lies inside the
bounding box it is written into. -/
def RegionOK (r : Region) : Prop :=
  r.voxels ⊆ r.hull ∧ ∀ v ∈ r.hull, inSlice r v

instance (r : Region) : Decidable (RegionOK r) := by
  unfold RegionOK
  infer_instance

/-- Component size `regionprops(...)[i].area`. -/
def area (r : Region) : ℕ := r.voxels.card

/-- Component centroid `regionprops(...)[i].centroid`: the arithmetic mean
of the voxel coordinates, computed exactly over `ℚ`. -/
def centroid (s : Finset Voxel) : ℚ × ℚ × ℚ :=
  ((∑ v ∈ s, (v.1 : ℚ)) / s.card,
   (∑ v ∈ s, (v.2.1 : ℚ)) / s.card,
   (∑ v ∈ s, (v.2.2 : ℚ)) / s.card)

/-- Helper for `argmaxL`: running first-argmax scan with current index,
best index and best value. -/
def argmaxFrom : ℕ → ℕ → ℕ → List ℕ → ℕ
  | _, bi, _, [] => bi
  | i, bi, bv, a :: t =>
    if bv < a then argmaxFrom (i + 1) i a t else argmaxFrom (i + 1) bi bv t

/-- NumPy `np.argmax` on a list: index of the first occurrence of the
maximum (strict improvement updates the best index). -/
def argmaxL : List ℕ → ℕ
  | [] => 0
  | a :: t => argmaxFrom 1 0 a t

/-- The slice assignment `out[bbox slices] = convex_image` of
`simplify_vol`: voxels outside the bounding box keep their value from
`out`, voxels inside it take the hull image's value. -/
def applyHull (out : Finset Voxel) (r : Region) : Finset Voxel :=
  out.filter (fun v => ¬ inSlice r v) ∪ r.hull.filter (fun v => inSlice r v)

/-- Function `virtue.simplify_vol` (virtue.py lines 179-199), over the
labelled component list `cc = regionprops(label(vol))`.  The flag check
comes first (explicit `ValueError`, `configurationError`); on an empty
mask `cc` is empty and `np.argmax([])` raises (`geometryError`); the
variable `out` is assigned only under `largest_object`, so the
`convex_hull`-only path reads an unbound local (`nameError`).  The
returned centroid is computed from the selected component before any hull
regularisation. -/
def simplify_vol (cc : List Region) (convex_hull : Bool := true)
    (largest_object : Bool := true) :
    Except PyErr (Finset Voxel × (ℚ × ℚ × ℚ)) :=
  if convex_hull = false ∧ largest_object = false then
    .error .configurationError
  else
    match cc with
    | [] => .error .geometryError
    | r :: rest =>
      let i := argmaxL ((r :: rest).map area)
      let ri := (r :: rest).getD i r
      let c := centroid ri.voxels
      if largest_object then
        if convex_hull then .ok (applyHull ri.voxels ri, c)
        else .ok (ri.voxels, c)
      else .error .nameError

/-- With consistent skimage data, writing the hull into the bounding box of
the selected component replaces the component by its hull exactly. -/
lemma applyHull_eq_hull (r : Region) (h : RegionOK r) :
    applyHull r.voxels r = r.hull := by
  unfold applyHull
  have h1 : r.voxels.filter (fun v => ¬ inSlice r v) = ∅ :=
    Finset.filter_false_of_mem fun v hv => not_not_intro (h.2 v (h.1 hv))
  have h2 : r.hull.filter (fun v => inSlice r v) = r.hull :=
    Finset.filter_true_of_mem fun v hv => h.2 v hv
  rw [h1, h2, Finset.empty_union]

/-- Mean of a coordinate over a nonempty voxel set is bounded by any
uniform bounds on that coordinate. -/
lemma centroid_comp_bounds (s : Finset Voxel) (hs : s.Nonempty)
    (f : Voxel → ℕ) (lo hi : ℕ) (h : ∀ v ∈ s, lo ≤ f v ∧ f v < hi) :
    (lo : ℚ) ≤ (∑ v ∈ s, (f v : ℚ)) / s.card
      ∧ (∑ v ∈ s, (f v : ℚ)) / s.card < (hi : ℚ) := by
  have hcard : 0 < (s.card : ℚ) := by
    exact_mod_cast Finset.card_pos.mpr hs
  constructor
  · rw [le_div_iff₀ hcard]
    calc (lo : ℚ) * s.card = ∑ _v ∈ s, (lo : ℚ) := by
          rw [Finset.sum_const, nsmul_eq_mul, mul_comm]
      _ ≤ ∑ v ∈ s, (f v : ℚ) :=
          Finset.sum_le_sum fun v hv => by exact_mod_cast (h v hv).1
  · rw [div_lt_iff₀ hcard]
    calc ∑ v ∈ s, (f v : ℚ) ≤ ∑ _v ∈ s, ((hi : ℚ) - 1) := by
          refine Finset.sum_le_sum fun v hv => ?_
          have hlt : (f v : ℚ) + 1 ≤ (hi : ℚ) := by
            exact_mod_cast Nat.succ_le_of_lt (h v hv).2
          linarith
      _ = ((hi : ℚ) - 1) * s.card := by
          rw [Finset.sum_const, nsmul_eq_mul, mul_comm]
      _ < (hi : ℚ) * s.card := by nlinarith

/-- The pre-hull centroid lies inside the component's bounding box. -/
def centroidInBBox (r : Region) : Prop :=
  (r.lo.1 : ℚ) ≤ (centroid r.voxels).1
  ∧ (centroid r.voxels).1 < (r.hi.1 : ℚ)
  ∧ (r.lo.2.1 : ℚ) ≤ (centroid r.voxels).2.1
  ∧ (centroid r.voxels).2.1 < (r.hi.2.1 : ℚ)
  ∧ (r.lo.2.2 : ℚ) ≤ (centroid r.voxels).2.2
  ∧ (centroid r.voxels).2.2 < (r.hi.2.2 : ℚ)

/-- Any nonempty consistent component has its centroid inside its bounding
box. -/
lemma centroid_in_bbox (r : Region) (hok : RegionOK r)
    (hne : r.voxels.Nonempty) : centroidInBBox r := by
  have hin : ∀ v ∈ r.voxels, inSlice r v := fun v hv => hok.2 v (hok.1 hv)
  obtain ⟨hx1, hx2⟩ := centroid_comp_bounds r.voxels hne (fun v => v.1)
    r.lo.1 r.hi.1 (fun v hv => ⟨(hin v hv).1, (hin v hv).2.1⟩)
  obtain ⟨hy1, hy2⟩ := centroid_comp_bounds r.voxels hne (fun v => v.2.1)
    r.lo.2.1 r.hi.2.1 (fun v hv => ⟨(hin v hv).2.2.1, (hin v hv).2.2.2.1⟩)
  obtain ⟨hz1, hz2⟩ := centroid_comp_bounds r.voxels hne (fun v => v.2.2)
    r.lo.2.2 r.hi.2.2 (fun v hv => ⟨(hin v hv).2.2.2.2.1, (hin v hv).2.2.2.2.2⟩)
  exact ⟨hx1, hx2, hy1, hy2, hz1, hz2⟩

/-- Computation shape of `simplify_vol` with both flags at their
defaults. -/
lemma simplify_vol_cons_tt (r : Region) (rest : List Region) :
    simplify_vol (r :: rest) true true
      = .ok (applyHull ((r :: rest).getD (argmaxL ((r :: rest).map area)) r).voxels
            ((r :: rest).getD (argmaxL ((r :: rest).map area)) r),
          centroid ((r :: rest).getD (argmaxL ((r :: rest).map area)) r).voxels) :=
  rfl

/-- Closed form of `simplify_vol` on an empty mask (no labelled
components): the flag check fires first, otherwise `np.argmax([])`
raises. -/
lemma simplify_vol_nil (ch lo : Bool) :
    simplify_vol [] ch lo
      = if ch = false ∧ lo = false then .error .configurationError
        else .error .geometryError := by
  unfold simplify_vol
  by_cases h : ch = false ∧ lo = false
  · rw [if_pos h]
  · rw [if_neg h]

/-- Claim C4: on a mask with two components of 100 and 500 voxels (either
labelling order), `simplify_vol` with default flags selects the 500-voxel
component, returns its convex-hull image as the only foreground region
(so at least 500 voxels) together with the pre-hull centroid of that
component, which lies inside its bounding box. -/
theorem simplify_vol_two_components (r1 r2 : Region)
    (hok1 : RegionOK r1) (hok2 : RegionOK r2) :
    (area r1 = 100 → area r2 = 500 →
      simplify_vol [r1, r2] true true = .ok (r2.hull, centroid r2.voxels)
      ∧ 500 ≤ r2.hull.card ∧ centroidInBBox r2)
    ∧ (area r1 = 500 → area r2 = 100 →
      simplify_vol [r1, r2] true true = .ok (r1.hull, centroid r1.voxels)
      ∧ 500 ≤ r1.hull.card ∧ centroidInBBox r1) := by
  constructor
  · intro ha1 ha2
    have hidx : argmaxL (List.map area [r1, r2]) = 1 := by
      show argmaxL [area r1, area r2] = 1
      rw [ha1, ha2]
      decide
    have hget : [r1, r2].getD 1 r1 = r2 := rfl
    have hne : r2.voxels.Nonempty := by
      refine Finset.card_pos.mp ?_
      rw [show r2.voxels.card = area r2 from rfl, ha2]
      norm_num
    refine ⟨?_, ?_, centroid_in_bbox r2 hok2 hne⟩
    · rw [simplify_vol_cons_tt r1 [r2], hidx, hget, applyHull_eq_hull r2 hok2]
    · calc 500 = r2.voxels.card := ha2.symm
        _ ≤ r2.hull.card := Finset.card_le_card hok2.1
  · intro ha1 ha2
    have hidx : argmaxL (List.map area [r1, r2]) = 0 := by
      show argmaxL [area r1, area r2] = 0
      rw [ha1, ha2]
      decide
    have hget : [r1, r2].getD 0 r1 = r1 := rfl
    have hne : r1.voxels.Nonempty := by
      refine Finset.card_pos.mp ?_
      rw [show r1.voxels.card = area r1 from rfl, ha1]
      norm_num
    refine ⟨?_, ?_, centroid_in_bbox r1 hok1 hne⟩
    · rw [simplify_vol_cons_tt r1 [r2], hidx, hget, applyHull_eq_hull r1 hok1]
    · calc 500 = r1.voxels.card := ha1.symm
        _ ≤ r1.hull.card := Finset.card_le_card hok1.1

/-- Axis-aligned box of voxels, `lo` inclusive and `hi` exclusive, used to
build concrete witness components. -/
def boxF (a b c d e f : ℕ) : Finset Voxel :=
  (Finset.range d ×ˢ Finset.range e ×ˢ Finset.range f).filter
    (fun v => a ≤ v.1 ∧ b ≤ v.2.1 ∧ c ≤ v.2.2)

/-- Concrete 100-voxel component: the box `[0,5) × [0,5) × [0,4)`. -/
def R100 : Region := ⟨boxF 0 0 0 5 5 4, boxF 0 0 0 5 5 4, (0, 0, 0), (5, 5, 4)⟩

/-- Concrete 500-voxel component: the box `[5,10) × [0,10) × [0,10)`,
disjoint from `R100`. -/
def R500 : Region :=
  ⟨boxF 5 0 0 10 10 10, boxF 5 0 0 10 10 10, (5, 0, 0), (10, 10, 10)⟩

set_option maxRecDepth 100000 in
set_option maxHeartbeats 4000000 in
/-- Witness for claim C4 at the concrete two-component mask. -/
theorem simplify_vol_two_components_witness :
    (area R100 = 100 ∧ area R500 = 500)
    ∧ (simplify_vol [R100, R500] true true
        = .ok (R500.hull, centroid R500.voxels)
      ∧ 500 ≤ R500.hull.card ∧ centroidInBBox R500) :=
  ⟨⟨by decide, by decide⟩,
   (simplify_vol_two_components R100 R500 ⟨Finset.Subset.refl _, by decide⟩
     ⟨Finset.Subset.refl _, by decide⟩).1 (by decide) (by decide)⟩

/-- Claim C5 (amended): `simplify_vol` fails with the configuration error
whenever both flags are false (this check runs first, even on an empty
mask); it fails with the geometry error on a mask with no foreground
voxels whenever at least one flag is true; and on an empty mask it never
produces a result mask or centroid. -/
theorem simplify_vol_error_cases (cc : List Region) (ch lo : Bool) :
    ((ch = false ∧ lo = false) →
      simplify_vol cc ch lo = .error .configurationError)
    ∧ (cc = [] → (ch || lo) = true →
      simplify_vol cc ch lo = .error .geometryError)
    ∧ (cc = [] → ∀ m c, simplify_vol cc ch lo ≠ .ok (m, c)) := by
  refine ⟨?_, ?_, ?_⟩
  · intro h
    unfold simplify_vol
    rw [if_pos h]
  · rintro rfl hor
    rw [simplify_vol_nil, if_neg ?_]
    cases ch <;> cases lo <;> simp_all
  · rintro rfl m c h
    rw [simplify_vol_nil] at h
    by_cases hfl : ch = false ∧ lo = false
    · rw [if_pos hfl] at h
      exact Except.noConfusion h
    · rw [if_neg hfl] at h
      exact Except.noConfusion h

/-- Witness for claim C5 at concrete flag settings on the empty mask. -/
theorem simplify_vol_error_cases_witness :
    simplify_vol [] false false = .error .configurationError
    ∧ simplify_vol [] true true = .error .geometryError :=
  ⟨(simplify_vol_error_cases [] false false).1 ⟨rfl, rfl⟩,
   (simplify_vol_error_cases [] true true).2.1 rfl rfl⟩

/-- Counterexample to claim C5 as stated: on the empty mask with both
flags false the call fails with the configuration error (the flag check
runs before the mask is inspected), not with the geometry error the claim
requires for every empty mask. -/
theorem simplify_vol_empty_flags_counterexample :
    simplify_vol [] false false = .error .configurationError
    ∧ (Except.error PyErr.configurationError :
        Except PyErr (Finset Voxel × (ℚ × ℚ × ℚ)))
      ≠ .error .geometryError := by
  constructor
  · rfl
  · simp

/-- Claim C8 (amended): on every mask with at least one labelled
component, calling `simplify_vol` with `convex_hull` true and
`largest_object` false reads the unbound local `out` and raises
`NameError` (an `UnboundLocalError`); and every call that returns
normally has `largest_object` true.  On an empty mask the argmax raises
first (see the counterexample). -/
theorem simplify_vol_unbound_out (cc : List Region) :
    (cc ≠ [] → simplify_vol cc true false = .error .nameError)
    ∧ (∀ ch lo : Bool, ∀ m c, simplify_vol cc ch lo = .ok (m, c) → lo = true) := by
  constructor
  · intro hne
    match cc with
    | [] => exact absurd rfl hne
    | r :: rest => rfl
  · intro ch lo m c h
    cases lo
    · exfalso
      match cc with
      | [] =>
        rw [simplify_vol_nil] at h
        by_cases hfl : ch = false ∧ (false : Bool) = false
        · rw [if_pos hfl] at h
          exact Except.noConfusion h
        · rw [if_neg hfl] at h
          exact Except.noConfusion h
      | r :: rest =>
        cases ch
        · have he : simplify_vol (r :: rest) false false
              = .error .configurationError := rfl
          rw [he] at h
          exact Except.noConfusion h
        · have he : simplify_vol (r :: rest) true false
              = .error .nameError := rfl
          rw [he] at h
          exact Except.noConfusion h
    · rfl

/-- Witness for claim C8 at a concrete nonempty mask. -/
theorem simplify_vol_unbound_out_witness :
    simplify_vol [R100] true false = .error .nameError :=
  (simplify_vol_unbound_out [R100]).1 (by simp)

/-- Counterexample to claim C8 as stated: on an empty mask (no labelled
components) the `convex_hull`-only call fails at `np.argmax` with the
geometry error before the unbound `out` is ever reached, so not every
input mask raises `NameError`. -/
theorem simplify_vol_empty_not_nameError_counterexample :
    simplify_vol [] true false = .error .geometryError
    ∧ (Except.error PyErr.geometryError :
        Except PyErr (Finset Voxel × (ℚ × ℚ × ℚ)))
      ≠ .error .nameError := by
  constructor
  · rw [simplify_vol_nil, if_neg (by simp)]
  · simp

/-- Triangulated surface: vertex coordinates (`points`) and triangular
faces as vertex-index triples, the plain pair representation used by
`surf_from_vol` after stripping pyvista's leading face sizes. -/
structure TriMesh where
  points : List (ℝ × ℝ × ℝ)
  faces : List (ℕ × ℕ × ℕ)

/-- Face count `mesh.n_faces` of a triangulated mesh. -/
def n_faces (m : TriMesh) : ℕ := m.faces.length

/-- Per-face centroids `np.sum(V[F], axis=1) / 3` of `surf_from_vol`: the
arithmetic mean of each face's three vertex coordinates. -/
noncomputable def face_centroids (m : TriMesh) : List (ℝ × ℝ × ℝ) :=
  m.faces.map fun f =>
    let a := m.points.getD f.1 (0, 0, 0)
    let b := m.points.getD f.2.1 (0, 0, 0)
    let c := m.points.getD f.2.2 (0, 0, 0)
    ((a.1 + b.1 + c.1) / 3, (a.2.1 + b.2.1 + c.2.1) / 3,
     (a.2.2 + b.2.2 + c.2.2) / 3)

/-- The reduction fraction `surf_from_vol` passes to `mesh.decimate`.
Python's `if target_nfaces:` is a truthiness test, so both `None` and `0`
fall through to the supplied `target_reduction`; a nonzero target computes
`(mesh.n_faces - target_nfaces) / mesh.n_faces` by exact division. -/
def effective_reduction (nf : ℕ) (target_reduction : ℚ)
    (target_nfaces : Option ℕ) : ℚ :=
  match target_nfaces with
  | some n => if n ≠ 0 then ((nf : ℚ) - (n : ℚ)) / (nf : ℚ) else target_reduction
  | none => target_reduction


/-- Function `virtue.surf_from_vol` (virtue.py lines 141-177).  The
smoothing, isosurfacing and decimation are external collaborators:
`smin` and `smax` are the data range of the smoothed volume
`gaussian(vol, sigma)` produced by scipy/skimage, `mc` is the raw mesh
`measure.marching_cubes` extracts when the level is admissible, and
`decimate` is pyvista's `mesh.decimate`.  `measure.marching_cubes`
raises `ValueError` (geometry-error kind) exactly when the 0.5 level
lies outside the smoothed data range (`level < min or level > max` in
skimage): that happens for every empty mask (the smoothed volume is
identically zero, `smax = 0`), but also for some nonempty ones (a
single-voxel mask smoothed with `sigma=1` peaks near 0.06, and an
all-ones mask is constantly 1, so `smin = 1`).  Otherwise the decimated
mesh is returned as faces, vertices and per-face centroids, with no
further checks (in particular no check that any faces remain). -/
noncomputable def surf_from_vol (smin smax : ℝ) (mc : TriMesh)
    (decimate : ℚ → TriMesh) (target_reduction : ℚ)
    (target_nfaces : Option ℕ) :
    Except PyErr (List (ℕ × ℕ × ℕ) × List (ℝ × ℝ × ℝ) × List (ℝ × ℝ × ℝ)) :=
  if 1 / 2 < smin ∨ smax < 1 / 2 then .error .geometryError
  else
    let d := decimate (effective_reduction (n_faces mc) target_reduction
      target_nfaces)
    .ok (d.faces, d.points, face_centroids d)

/-- Claim C6 (amended): on any run that reaches decimation (the 0.5 level
lies within the smoothed volume's data range), when a nonzero target face
count is given the decimation is invoked with the reduction fraction
`(current_faces - target) / current_faces`; when no target is given, or
the given target is `0` (falsy in Python), the supplied
`target_reduction` fraction is applied directly instead. -/
theorem surf_from_vol_reduction_formula (smin smax : ℝ) (mc : TriMesh)
    (decimate : ℚ → TriMesh) (tr : ℚ)
    (hlevel : ¬ (1 / 2 < smin ∨ smax < 1 / 2)) :
    (∀ n : ℕ, n ≠ 0 →
      surf_from_vol smin smax mc decimate tr (some n)
        = .ok ((decimate (((n_faces mc : ℚ) - (n : ℚ)) / (n_faces mc : ℚ))).faces,
            (decimate (((n_faces mc : ℚ) - (n : ℚ)) / (n_faces mc : ℚ))).points,
            face_centroids
              (decimate (((n_faces mc : ℚ) - (n : ℚ)) / (n_faces mc : ℚ)))))
    ∧ surf_from_vol smin smax mc decimate tr none
        = .ok ((decimate tr).faces, (decimate tr).points,
            face_centroids (decimate tr))
    ∧ surf_from_vol smin smax mc decimate tr (some 0)
        = .ok ((decimate tr).faces, (decimate tr).points,
            face_centroids (decimate tr)) := by
  refine ⟨?_, ?_, ?_⟩
  · intro n hn
    have he : effective_reduction (n_faces mc) tr (some n)
        = ((n_faces mc : ℚ) - (n : ℚ)) / (n_faces mc : ℚ) := by
      show (if n ≠ 0 then ((n_faces mc : ℚ) - (n : ℚ)) / (n_faces mc : ℚ) else tr)
          = ((n_faces mc : ℚ) - (n : ℚ)) / (n_faces mc : ℚ)
      rw [if_pos hn]
    unfold surf_from_vol
    rw [if_neg hlevel, he]
  · unfold surf_from_vol
    rw [if_neg hlevel]
    rfl
  · unfold surf_from_vol
    rw [if_neg hlevel]
    rfl

/-- Concrete ten-face mesh standing for a marching-cubes output. -/
def meshC6 : TriMesh := ⟨[], List.replicate 10 (0, 0, 0)⟩

/-- Concrete decimation routine distinguishing full reduction (fraction
1, zero faces kept) from any other fraction (one face kept). -/
def decC6 : ℚ → TriMesh := fun q => ⟨[], if q = 1 then [] else [(0, 0, 0)]⟩

/-- Witness for claim C6: a run with smoothed range `[0, 1]` (a normal
binary mask) and the concrete nonzero target face count 5. -/
theorem surf_from_vol_reduction_formula_witness :
    surf_from_vol 0 1 meshC6 decC6 (4 / 5) (some 5)
      = .ok ((decC6 (((n_faces meshC6 : ℚ) - ((5 : ℕ) : ℚ)) / (n_faces meshC6 : ℚ))).faces,
          (decC6 (((n_faces meshC6 : ℚ) - ((5 : ℕ) : ℚ)) / (n_faces meshC6 : ℚ))).points,
          face_centroids
            (decC6 (((n_faces meshC6 : ℚ) - ((5 : ℕ) : ℚ)) / (n_faces meshC6 : ℚ)))) :=
  (surf_from_vol_reduction_formula 0 1 meshC6 decC6 (4 / 5)
    (by norm_num)).1 5 (by decide)

/-- Counterexample to claim C6 as stated: on a run that reaches
decimation (smoothed range `[0, 1]`) with the target face count `0`
supplied on a ten-face mesh, the decimation is invoked with the supplied
`target_reduction = 4/5` (yielding a one-face mesh here), not with the
claimed fraction `(10 - 0)/10 = 1` (which would yield the zero-face
mesh): `if target_nfaces:` treats `0` as absent. -/
theorem surf_from_vol_zero_target_counterexample :
    surf_from_vol 0 1 meshC6 decC6 (4 / 5) (some 0)
      = .ok ((decC6 (4 / 5)).faces, (decC6 (4 / 5)).points,
          face_centroids (decC6 (4 / 5)))
    ∧ (decC6 (4 / 5)).faces = [((0 : ℕ), 0, 0)]
    ∧ (decC6 (((n_faces meshC6 : ℚ) - ((0 : ℕ) : ℚ)) / (n_faces meshC6 : ℚ))).faces = []
    ∧ ([((0 : ℕ), 0, 0)] : List (ℕ × ℕ × ℕ)) ≠ [] := by
  refine ⟨?_, ?_, ?_, ?_⟩
  · unfold surf_from_vol
    rw [if_neg (by norm_num)]
    rfl
  · unfold decC6
    rw [if_neg (by norm_num)]
  · show (decC6 (((10 : ℚ) - (0 : ℚ)) / (10 : ℚ))).faces = []
    unfold decC6
    rw [if_pos (by norm_num)]
  · simp

/-- Claim C7 (amended): `surf_from_vol` propagates skimage's geometry
error whenever the 0.5 level lies outside the smoothed volume's data
range — in particular on every empty mask, whose smoothed volume is
identically zero (`smin = smax = 0`) — but when the level is admissible
and the requested reduction leaves zero faces it does not fail: it
returns a Surface whose face list and centroid list are empty. -/
theorem surf_from_vol_empty_and_zero_faces (smin smax : ℝ) (mc : TriMesh)
    (decimate : ℚ → TriMesh) (tr : ℚ) (tn : Option ℕ) :
    ((1 / 2 < smin ∨ smax < 1 / 2) →
      surf_from_vol smin smax mc decimate tr tn = .error .geometryError)
    ∧ (smin = 0 ∧ smax = 0 →
      surf_from_vol smin smax mc decimate tr tn = .error .geometryError)
    ∧ (¬ (1 / 2 < smin ∨ smax < 1 / 2) →
        (decimate (effective_reduction (n_faces mc) tr tn)).faces = [] →
        surf_from_vol smin smax mc decimate tr tn
          = .ok ([], (decimate (effective_reduction (n_faces mc) tr tn)).points,
              [])) := by
  refine ⟨?_, ?_, ?_⟩
  · intro hbad
    unfold surf_from_vol
    rw [if_pos hbad]
  · rintro ⟨rfl, rfl⟩
    unfold surf_from_vol
    rw [if_pos (by norm_num)]
  · intro hlevel hfaces
    unfold surf_from_vol
    rw [if_neg hlevel]
    show Except.ok ((decimate (effective_reduction (n_faces mc) tr tn)).faces,
        (decimate (effective_reduction (n_faces mc) tr tn)).points,
        face_centroids (decimate (effective_reduction (n_faces mc) tr tn))) = _
    rw [hfaces]
    unfold face_centroids
    rw [hfaces]
    rfl

/-- Witness for claim C7 at concrete inputs: an all-zero smoothed volume
(empty mask) errors, and an admissible run whose decimation keeps no
faces still returns a surface. -/
theorem surf_from_vol_empty_and_zero_faces_witness :
    surf_from_vol 0 0 meshC6 decC6 (1 / 2) none = .error .geometryError
    ∧ surf_from_vol 0 1 meshC6 (fun _ => ⟨[], []⟩) (1 / 2) none
        = .ok ([], [], []) :=
  ⟨(surf_from_vol_empty_and_zero_faces 0 0 meshC6 decC6 (1 / 2) none).2.1
     ⟨rfl, rfl⟩,
   (surf_from_vol_empty_and_zero_faces 0 1 meshC6 (fun _ => ⟨[], []⟩) (1 / 2)
     none).2.2 (by norm_num) rfl⟩

/-- Counterexample to claim C7 as stated: on a run that reaches
decimation (smoothed range `[0, 1]`, as for the spec's sphere masks)
whose decimation leaves zero faces, `surf_from_vol` returns a Surface
(with empty face and centroid lists) rather than failing with a geometry
error. -/
theorem surf_from_vol_zero_faces_counterexample :
    surf_from_vol 0 1 meshC6 (fun _ => ⟨[], []⟩) (4 / 5) none
      = .ok ([], [], [])
    ∧ ∀ e : PyErr,
        (Except.ok (([] : List (ℕ × ℕ × ℕ)), ([] : List (ℝ × ℝ × ℝ)),
          ([] : List (ℝ × ℝ × ℝ))) :
            Except PyErr (List (ℕ × ℕ × ℕ) × List (ℝ × ℝ × ℝ) × List (ℝ × ℝ × ℝ)))
          ≠ Except.error e := by
  constructor
  · unfold surf_from_vol
    rw [if_neg (by norm_num)]
    rfl
  · intro e h
    exact Except.noConfusion h
